import Mathlib

/-!
Verification development for the `linescore` classification-scoring engine.

The Python sources are shallowly embedded:
* floats are modelled as rationals (every concrete value the claims mention
  is a dyadic rational, exactly representable in binary floating point);
* fallible Python code is modelled with `Except PyErr`, where `PyErr`
  enumerates the exception classes that the relevant code can raise;
* `json.loads` is modelled by an executable recursive-descent parser over a
  `Json` value type, `str.strip`, `<think>` stripping (`re.sub` with a
  non-greedy pattern), markdown-fence stripping and `float(...)` coercion are
  modelled by executable functions mirroring their CPython semantics on the
  inputs that occur in this code base;
* the stale dataclass field names in `linescore/models.py` (which no longer
  match the keyword arguments used in `linescore/scorer.py`) are modelled by
  an explicit keyword-binding check `dataclassCall`; the records used by the
  aggregation logic carry the field names that `scorer.py` itself uses.
-/

/- The kernel may always unfold the rational-number operations; restoring
their default reducibility lets concrete runs of the embedded code be checked
by `rfl`/`decide`. -/
set_option allowUnsafeReducibility true
attribute [semireducible] Rat.add Rat.mul Rat.sub Rat.div Rat.neg Rat.inv

namespace Linescore

/-- Python exception classes raised (or caught) by the embedded code. -/
inductive PyErr where
  | valueError (msg : String)
  | typeError (msg : String)
  | attributeError (msg : String)
  | keyError (msg : String)
  | zeroDivisionError (msg : String)
  deriving DecidableEq, Repr

/-- JSON values as produced by `json.loads` (numbers as rationals). -/
inductive Json where
  | null : Json
  | bool (b : Bool) : Json
  | num (q : ℚ) : Json
  | str (s : String) : Json
  | arr (elts : List Json) : Json
  | obj (kvs : List (String × Json)) : Json

/-- Decoder output: `linescore/models.py` `JudgmentResult`.  The `guess` field
is annotated `str` in the source but a Python dataclass stores whatever value
was passed, so we keep the raw JSON value. -/
structure JudgmentResult where
  guess : Json
  confidence : ℚ

/-! ## Python string primitives -/

/-- Whitespace characters recognised by `str.strip()` (the subset that occurs
in oracle responses). -/
def isPyWs (c : Char) : Bool :=
  c = ' ' || c = '\n' || c = '\t' || c = '\r'

/-- `str.strip()` on the underlying character list. -/
def stripChars (l : List Char) : List Char :=
  ((l.dropWhile isPyWs).reverse.dropWhile isPyWs).reverse

/-- Python `str.strip()`. -/
def pyStrip (s : String) : String := ⟨stripChars s.data⟩

/-- First occurrence split: `splitFirstSub pat l = some (pre, suf)` when
`l = pre ++ pat ++ suf` and `pat` occurs nowhere earlier. -/
def splitFirstSub (pat : List Char) : List Char → Option (List Char × List Char)
  | [] => if pat.isEmpty then some ([], []) else none
  | c :: rest =>
    if pat.isPrefixOf (c :: rest) then some ([], (c :: rest).drop pat.length)
    else
      match splitFirstSub pat rest with
      | some (pre, suf) => some (c :: pre, suf)
      | none => none

/-- Python `pat in s` for strings (substring containment). -/
def isSubstr (pat l : List Char) : Bool := (splitFirstSub pat l).isSome

def thinkOpen : List Char := "<think>".data
def thinkClose : List Char := "</think>".data

/-- `re.sub(r"<think>.*?</think>", "", text, flags=re.DOTALL)`: repeatedly
remove the leftmost non-greedy `<think>...</think>` span. -/
def stripThinkChars (fuel : Nat) (l : List Char) : List Char :=
  match fuel with
  | 0 => l
  | fuel + 1 =>
    match splitFirstSub thinkOpen l with
    | none => l
    | some (pre, afterOpen) =>
      match splitFirstSub thinkClose afterOpen with
      | none => l
      | some (_, afterClose) => pre ++ stripThinkChars fuel afterClose

/-- `_strip_thinking` from `linescore/backends/__init__.py`. -/
def stripThinking (text : String) : String :=
  pyStrip ⟨stripThinkChars text.data.length text.data⟩

/-! ## A model of `json.loads` -/

def isJsonDigit (c : Char) : Bool := '0' ≤ c && c ≤ '9'

def digitsToNat (ds : List Char) : Nat :=
  ds.foldl (fun n c => n * 10 + (c.toNat - '0'.toNat)) 0

/-- Body of a JSON string literal, after the opening quote; returns the
decoded characters and the input remaining after the closing quote. -/
def parseStrBody : List Char → Except Unit (List Char × List Char)
  | [] => .error ()
  | '"' :: rest => .ok ([], rest)
  | '\\' :: e :: rest =>
    let dec : Except Unit Char :=
      if e = '"' then .ok '"'
      else if e = '\\' then .ok '\\'
      else if e = '/' then .ok '/'
      else if e = 'n' then .ok '\n'
      else if e = 't' then .ok '\t'
      else if e = 'r' then .ok '\r'
      else .error ()
    match dec with
    | .error _ => .error ()
    | .ok ch =>
      match parseStrBody rest with
      | .ok (s, rem) => .ok (ch :: s, rem)
      | .error _ => .error ()
  | '\\' :: [] => .error ()
  | c :: rest =>
    match parseStrBody rest with
    | .ok (s, rem) => .ok (c :: s, rem)
    | .error _ => .error ()

/-- Optional fraction part `.digits`. -/
def parseFrac : List Char → Except Unit (ℚ × List Char)
  | '.' :: r =>
    let fs := r.takeWhile isJsonDigit
    let r2 := r.dropWhile isJsonDigit
    if fs.isEmpty then .error ()
    else .ok ((digitsToNat fs : ℚ) / ((10 : ℚ) ^ fs.length), r2)
  | l => .ok (0, l)

/-- Optional exponent part `e[+-]digits` (sign flag and magnitude). -/
def parseExp : List Char → Except Unit ((Bool × Nat) × List Char)
  | 'e' :: r | 'E' :: r =>
    let (neg, r1) : Bool × List Char :=
      match r with
      | '-' :: r' => (true, r')
      | '+' :: r' => (false, r')
      | _ => (false, r)
    let ds := r1.takeWhile isJsonDigit
    let r2 := r1.dropWhile isJsonDigit
    if ds.isEmpty then .error ()
    else .ok ((neg, digitsToNat ds), r2)
  | l => .ok ((false, 0), l)

/-- JSON number. -/
def parseNum (l : List Char) : Except Unit (ℚ × List Char) := do
  let (neg, l1) : Bool × List Char :=
    match l with
    | '-' :: r => (true, r)
    | _ => (false, l)
  let ds := l1.takeWhile isJsonDigit
  let l2 := l1.dropWhile isJsonDigit
  if ds.isEmpty then .error () else
  let (fr, l3) ← parseFrac l2
  let (ex, l4) ← parseExp l3
  let base : ℚ := (digitsToNat ds : ℚ) + fr
  let v : ℚ :=
    if ex.1 then base / (10 : ℚ) ^ ex.2 else base * (10 : ℚ) ^ ex.2
  .ok ((if neg then -v else v), l4)

def skipWs (l : List Char) : List Char := l.dropWhile isPyWs

/-- Python `dict` insertion: an existing key keeps its position, its value is
replaced; a new key is appended. -/
def objInsert (acc : List (String × Json)) (k : String) (v : Json) :
    List (String × Json) :=
  match acc with
  | [] => [(k, v)]
  | (k', v') :: rest =>
    if k' = k then (k', v) :: rest else (k', v') :: objInsert rest k v

/-- State of the recursive-descent parser: at a value, inside an object's
member list, or inside an array's element list. -/
inductive ParseSt where
  | val (l : List Char)
  | objRest (l : List Char) (acc : List (String × Json))
  | arrRest (l : List Char) (acc : List Json)

/-- Fuel-indexed recursive-descent JSON parser (single function, structurally
recursive on the fuel, so that it evaluates definitionally). -/
def parseCore : Nat → ParseSt → Except Unit (Json × List Char)
  | 0, _ => .error ()
  | fuel + 1, .val l =>
    match skipWs l with
    | [] => .error ()
    | c :: rest =>
      if c = '"' then
        match parseStrBody rest with
        | .ok (s, rem) => .ok (.str ⟨s⟩, rem)
        | .error _ => .error ()
      else if c = '\x7b' then parseCore fuel (.objRest rest [])
      else if c = '[' then parseCore fuel (.arrRest rest [])
      else if c = 't' then
        if "rue".data.isPrefixOf rest then .ok (.bool true, rest.drop 3) else .error ()
      else if c = 'f' then
        if "alse".data.isPrefixOf rest then .ok (.bool false, rest.drop 4) else .error ()
      else if c = 'n' then
        if "ull".data.isPrefixOf rest then .ok (.null, rest.drop 3) else .error ()
      else
        match parseNum (c :: rest) with
        | .ok (q, rem) => .ok (.num q, rem)
        | .error _ => .error ()
  | fuel + 1, .objRest l acc =>
    match skipWs l with
    | '\x7d' :: rest => if acc.isEmpty then .ok (.obj acc, rest) else .error ()
    | '"' :: rest =>
      match parseStrBody rest with
      | .error _ => .error ()
      | .ok (kcs, rem) =>
        match skipWs rem with
        | ':' :: rem2 =>
          match parseCore fuel (.val rem2) with
          | .error _ => .error ()
          | .ok (v, rem3) =>
            let acc' := objInsert acc ⟨kcs⟩ v
            match skipWs rem3 with
            | ',' :: rem4 => parseCore fuel (.objRest rem4 acc')
            | '\x7d' :: rem4 => .ok (.obj acc', rem4)
            | _ => .error ()
        | _ => .error ()
    | _ => .error ()
  | fuel + 1, .arrRest l acc =>
    match skipWs l with
    | ']' :: rest =>
      if acc.isEmpty then .ok (.arr acc, rest) else .error ()
    | l' =>
      match parseCore fuel (.val l') with
      | .error _ => .error ()
      | .ok (v, rem) =>
        match skipWs rem with
        | ',' :: rem2 => parseCore fuel (.arrRest rem2 (acc ++ [v]))
        | ']' :: rem2 => .ok (.arr (acc ++ [v]), rem2)
        | _ => .error ()

/-- `json.loads`: parse one value, then require only whitespace afterwards. -/
def jsonLoads (s : String) : Except Unit Json :=
  match parseCore (2 * s.length + 16) (.val s.data) with
  | .ok (v, rem) => if (skipWs rem).isEmpty then .ok v else .error ()
  | .error _ => .error ()

/-! ## Python operations on decoded JSON values -/

/-- Python `key in v` for a decoded JSON value: dicts test key membership,
lists test element membership, strings test substring containment, and other
types raise `TypeError: argument of type ... is not iterable`. -/
def pyContains (key : String) : Json → Except PyErr Bool
  | .obj kvs => .ok (kvs.any (fun p => p.1 == key))
  | .arr xs =>
    .ok (xs.any (fun j => match j with | .str s => s == key | _ => false))
  | .str s => .ok (isSubstr key.data s.data)
  | _ => .error (.typeError "argument of type is not iterable")

/-- Python `v[key]` with a string key. -/
def pyGetItem (v : Json) (key : String) : Except PyErr Json :=
  match v with
  | .obj kvs =>
    match kvs.find? (fun p => p.1 == key) with
    | some p => .ok p.2
    | none => .error (.keyError key)
  | .str _ => .error (.typeError "string indices must be integers")
  | .arr _ => .error (.typeError "list indices must be integers")
  | _ => .error (.typeError "object is not subscriptable")

/-- Python `v.get(key, default)`: only dicts have `.get`; every other decoded
JSON value raises `AttributeError`. -/
def pyDictGet (v : Json) (key : String) (dflt : Json) : Except PyErr Json :=
  match v with
  | .obj kvs =>
    .ok (match kvs.find? (fun p => p.1 == key) with
         | some p => p.2
         | none => dflt)
  | _ => .error (.attributeError "object has no attribute get")

/-- Python `v.strip()`: only strings have `.strip`; in particular an `int`
value raises `AttributeError`. -/
def pyStripAttr (v : Json) : Except PyErr String :=
  match v with
  | .str s => .ok (pyStrip s)
  | .num _ => .error (.attributeError "int object has no attribute strip")
  | _ => .error (.attributeError "object has no attribute strip")

/-- The numeric prefix accepted by Python `float(str)`:
`[sign] (digits [. digits] | . digits)` after stripping whitespace
(`inf`/`nan`/exponents are irrelevant to this code base). -/
def parseFloatStr (s : String) : Option ℚ :=
  let l := stripChars s.data
  let (neg, l1) : Bool × List Char :=
    match l with
    | '-' :: r => (true, r)
    | '+' :: r => (false, r)
    | _ => (false, l)
  let ds := l1.takeWhile isJsonDigit
  let l2 := l1.dropWhile isJsonDigit
  let frac : Option (ℚ × List Char) :=
    match l2 with
    | '.' :: r =>
      let fs := r.takeWhile isJsonDigit
      let r2 := r.dropWhile isJsonDigit
      if ds.isEmpty && fs.isEmpty then none
      else some ((digitsToNat fs : ℚ) / ((10 : ℚ) ^ fs.length), r2)
    | _ => if ds.isEmpty then none else some (0, l2)
  match frac with
  | none => none
  | some (fr, rem) =>
    if rem.isEmpty then
      let v : ℚ := (digitsToNat ds : ℚ) + fr
      some (if neg then -v else v)
    else none

/-- Python `float(v)` on a decoded JSON value: numbers and booleans coerce,
strings are parsed (raising `ValueError` on failure), and `None`, lists and
dicts raise `TypeError`. -/
def pyFloat (v : Json) : Except PyErr ℚ :=
  match v with
  | .num q => .ok q
  | .bool b => .ok (if b then 1 else 0)
  | .str s =>
    match parseFloatStr s with
    | some q => .ok q
    | none => .error (.valueError ("could not convert string to float: " ++ s))
  | .null => .error (.typeError "float() argument must not be NoneType")
  | .arr _ => .error (.typeError "float() argument must not be list")
  | .obj _ => .error (.typeError "float() argument must not be dict")

/-! ## The response decoder: `parse_judgment_json` -/

/-- `str.removeprefix`. -/
def dropPre (p s : String) : String :=
  if p.data.isPrefixOf s.data then ⟨s.data.drop p.data.length⟩ else s

/-- `str.removesuffix`. -/
def dropSuf (p s : String) : String :=
  if p.data.isSuffixOf s.data then ⟨s.data.take (s.data.length - p.data.length)⟩ else s

def fenceOpen : String := "```json"
def fenceClose : String := "```"

/-- The shared tail of `parse_judgment_json`
(`linescore/backends/__init__.py` lines 49-59): strip markdown fences, parse
the candidate text, and read `guess`/`confidence` from the result.  The
`except` clause catches `JSONDecodeError`, `ValueError` and `TypeError`, but
not the `AttributeError` raised by `data.get` when `data` is not a dict. -/
def finishInner (innerText : String) : Except PyErr JudgmentResult :=
  let t := pyStrip (dropSuf fenceClose (dropPre fenceOpen innerText))
  match jsonLoads t with
  | .error _ => .ok ⟨.str "", 0⟩
  | .ok data =>
    match data with
    | .obj kvs =>
      let g : Json :=
        match kvs.find? (fun p => p.1 == "guess") with
        | some p => p.2
        | none => .str ""
      let cv : Json :=
        match kvs.find? (fun p => p.1 == "confidence") with
        | some p => p.2
        | none => .num 0
      match pyFloat cv with
      | .ok c => .ok ⟨g, c⟩
      | .error (.valueError _) => .ok ⟨.str "", 0⟩
      | .error (.typeError _) => .ok ⟨.str "", 0⟩
      | .error e => .error e
    | _ => .error (.attributeError "object has no attribute get")

/-- `parse_judgment_json` from `linescore/backends/__init__.py`.  The first
`try` guards only the `json.loads(text)` call; the subsequent attribute
accesses, subscripts and the `float(...)` coercion in the direct-`guess`
branch run unguarded. -/
def parse_judgment_json (text : String) : Except PyErr JudgmentResult :=
  let text1 := stripThinking text
  let outer : Json :=
    match jsonLoads text1 with
    | .ok v => v
    | .error _ => .obj []
  match pyContains "result" outer with
  | .error e => .error e
  | .ok true =>
    match pyGetItem outer "result" with
    | .error e => .error e
    | .ok rv =>
      match pyStripAttr rv with
      | .error e => .error e
      | .ok innerText => finishInner innerText
  | .ok false =>
    match pyContains "guess" outer with
    | .error e => .error e
    | .ok true =>
      match pyDictGet outer "guess" (.str "") with
      | .error e => .error e
      | .ok g =>
        match pyDictGet outer "confidence" (.num 0) with
        | .error e => .error e
        | .ok cv =>
          match pyFloat cv with
          | .error e => .error e
          | .ok c => .ok ⟨g, c⟩
    | .ok false => finishInner (pyStrip text1)

example : jsonLoads "\x7b\"result\": 42\x7d" =
    .ok (.obj [("result", .num 42)]) := by rfl

example :
    (parse_judgment_json "\x7b\"guess\": \"foo\", \"confidence\": 0.9\x7d").map
      (fun jr => (jr.guess, jr.confidence)) =
    .ok (.str "foo", 9 / 10) := by rfl

example :
    (parse_judgment_json "not json at all").map
      (fun jr => (jr.guess, jr.confidence)) =
    .ok (.str "", 0) := by rfl

example :
    (parse_judgment_json
      "\x7b\"result\": \"\x7b\\\"guess\\\": \\\"bar\\\", \\\"confidence\\\": 0.7\x7d\"\x7d").map
      (fun jr => (jr.guess, jr.confidence)) =
    .ok (.str "bar", 7 / 10) := by rfl

example :
    (parse_judgment_json
      "\x7b\"result\": \"```json\\n\x7b\\\"guess\\\": \\\"baz\\\", \\\"confidence\\\": 0.5\x7d\\n```\"\x7d").map
      (fun jr => (jr.guess, jr.confidence)) =
    .ok (.str "baz", 1 / 2) := by rfl

example :
    (parse_judgment_json
      "<think>the item loops over rows</think>\x7b\"guess\": \"q\", \"confidence\": 0.25\x7d").map
      (fun jr => (jr.guess, jr.confidence)) =
    .ok (.str "q", 1 / 4) := by rfl

example :
    (parse_judgment_json "\x7b\"result\": \"\x7b\\\"other\\\": \\\"value\\\"\x7d\"\x7d").map
      (fun jr => (jr.guess, jr.confidence)) =
    .ok (.str "", 0) := by rfl

/-! ## Data model (`linescore/models.py` / as used by `linescore/scorer.py`) -/

/-- `ClassificationTask` from `linescore/models.py`. -/
structure ClassificationTask where
  item : String
  actual : String
  candidates : List String
  deriving DecidableEq, Repr

/-- One judged item, with the fields `scorer.py` passes to `GuessResult(...)`
(`item`, `actual`, `guessed`, `confidence`, `correct`, `num_candidates`).
The stale dataclass in `models.py` is captured by `guessResultFields` below. -/
structure GuessResult where
  item : String
  actual : String
  guessed : String
  confidence : ℚ
  correct : Bool
  num_candidates : Nat
  deriving DecidableEq, Repr

/-- `CategoryScore` from `linescore/models.py`. -/
structure CategoryScore where
  name : String
  total : Nat
  correct : Nat
  score : ℚ
  results : List GuessResult
  deriving DecidableEq, Repr

/-- A confused `(actual, guessed)` pair with its count, with the field names
`scorer.py` passes (`category_a`, `category_b`, `count`). -/
structure ConfusedPair where
  category_a : String
  category_b : String
  count : Nat
  deriving DecidableEq, Repr

/-- The run's full output, with the fields `scorer.py` passes to
`ScoreResult(...)`. -/
structure ScoreResult where
  score : ℚ
  total : Nat
  correct : Nat
  check : String
  adjusted_score : ℚ
  chance_level : ℚ
  num_categories : Nat
  category_scores : List CategoryScore
  confused_pairs : List ConfusedPair
  results : List GuessResult
  deriving DecidableEq, Repr

/-! ## The stale dataclass in `models.py` (claim C1) -/

/-- The field names of `GuessResult` as actually declared in
`linescore/models.py` lines 26-33. -/
def guessResultFields : List String :=
  ["statement", "actual_function", "guessed_function", "confidence", "correct"]

/-- The keyword arguments that `scorer.py` lines 69-76 passes to
`GuessResult(...)`. -/
def guessResultKwargs : List String :=
  ["item", "actual", "guessed", "confidence", "correct", "num_candidates"]

/-- Binding a Python call's keyword arguments against a dataclass'
`__init__` parameters: an unknown keyword, or a missing required parameter,
raises `TypeError`. -/
def dataclassCall (fields kwargs : List String) : Except PyErr Unit :=
  match kwargs.find? (fun k => !(fields.contains k)) with
  | some k => .error (.typeError ("unexpected keyword argument: " ++ k))
  | none =>
    match fields.find? (fun f => !(kwargs.contains f)) with
    | some f => .error (.typeError ("missing required argument: " ++ f))
    | none => .ok ()

/-! ## The dispatcher (`linescore/scorer.py`) -/

/-- Python `==` between a decoded JSON value and a Python `str`: true exactly
for an equal string. -/
def pyEqStr (v : Json) (s : String) : Bool :=
  match v with
  | .str t => t == s
  | _ => false

/-- Line 74 of `scorer.py`: `correct=jr.guess == task.actual`. -/
def scoreOneCorrect (jr : JudgmentResult) (task : ClassificationTask) : Bool :=
  pyEqStr jr.guess task.actual

/-- `_score_one` from `scorer.py` lines 65-76: build the prompt, call the
backend, decode, and record correctness as `jr.guess == task.actual`.
Python evaluates the keyword arguments first, then binds them against the
dataclass parameters from `models.py`, which raises `TypeError` (claim C1). -/
def score_one (build_prompt : List String → String → String)
    (complete : String → String) (task : ClassificationTask) :
    Except PyErr GuessResult :=
  let prompt := build_prompt task.candidates task.item
  let raw := complete prompt
  match parse_judgment_json raw with
  | .error e => .error e
  | .ok jr =>
    let correctFlag := scoreOneCorrect jr task
    match dataclassCall guessResultFields guessResultKwargs with
    | .error e => .error e
    | .ok _ =>
      .ok ⟨task.item, task.actual,
           (match jr.guess with | .str s => s | _ => ""),
           jr.confidence, correctFlag, task.candidates.length⟩

/-- `random.sample(population, k)`: raises `ValueError` when `k` is negative
or exceeds the population size; otherwise defers to the (injected) random
selection `pick`, which chooses `k` elements without replacement. -/
def pySample (pick : List ClassificationTask → Nat → List ClassificationTask)
    (population : List ClassificationTask) (k : Int) :
    Except PyErr (List ClassificationTask) :=
  if k < 0 ∨ (population.length : Int) < k then
    .error (.valueError "Sample larger than population or is negative")
  else .ok (pick population k.toNat)

/-- The sampling step of `score` (`scorer.py` lines 54-56):
`if max_items and len(tasks) > max_items: tasks = random.sample(tasks, max_items)`.
`max_items` is falsy when it is `None` or `0`. -/
def sampleStep (pick : List ClassificationTask → Nat → List ClassificationTask)
    (max_items : Option Int) (tasks : List ClassificationTask) :
    Except PyErr (List ClassificationTask) :=
  match max_items with
  | none => .ok tasks
  | some m =>
    if m ≠ 0 ∧ m < (tasks.length : Int) then pySample pick tasks m else .ok tasks

/-- Lines 54-58 of `scorer.py`: optional sampling followed by
`random.shuffle` (the injected permutation `shuffle`). -/
def sampleAndShuffle
    (pick : List ClassificationTask → Nat → List ClassificationTask)
    (shuffle : List ClassificationTask → List ClassificationTask)
    (max_items : Option Int) (tasks : List ClassificationTask) :
    Except PyErr (List ClassificationTask) :=
  match sampleStep pick max_items tasks with
  | .error e => .error e
  | .ok ts => .ok (shuffle ts)

/-- The `candidates_set` union loop of `score` (lines 46-48), also the
`all_candidates` loop of `_build_result` (lines 143-146). -/
def candidatesUnion (tasks : List ClassificationTask) : Finset String :=
  tasks.foldl (fun s t => s ∪ t.candidates.toFinset) ∅

/-! ## The aggregator (`_build_result`, `scorer.py` lines 93-171) -/

/-- Python float division: `ZeroDivisionError` on a zero divisor. -/
def pyDivQ (a b : ℚ) : Except PyErr ℚ :=
  if b = 0 then .error (.zeroDivisionError "float division by zero")
  else .ok (a / b)

/-- `sum(r.correct for r in guess_results)`. -/
def countCorrect (grs : List GuessResult) : Nat :=
  (grs.filter (fun r => r.correct)).length

/-- The `all_categories` loop (lines 103-109): distinct `actual` values in
first-seen order. -/
def allCategories (tasks : List ClassificationTask) : List String :=
  tasks.foldl (fun acc t => if acc.contains t.actual then acc else acc ++ [t.actual]) []

/-- The per-category score loop (lines 111-127). -/
def categoryScores (grs : List GuessResult) (cats : List String) :
    List CategoryScore :=
  cats.map (fun c =>
    let rs := grs.filter (fun r => r.actual == c)
    let fc := (rs.filter (fun r => r.correct)).length
    let ft := rs.length
    ⟨c, ft, fc, if 0 < ft then (fc : ℚ) / (ft : ℚ) else 0, rs⟩)

/-- `k = r.num_candidates if r.num_candidates >= 2 else len(all_categories)`
followed by `chance = 1.0 / k` (lines 133-134). -/
def chanceOf (numCats : Nat) (r : GuessResult) : Except PyErr ℚ :=
  let k : Nat := if 2 ≤ r.num_candidates then r.num_candidates else numCats
  pyDivQ 1 (k : ℚ)

/-- One iteration of the chance-adjustment loop (lines 132-138):
`adj_i = (score_i - chance) / (1.0 - chance)`. -/
def adjustedOne (numCats : Nat) (r : GuessResult) : Except PyErr ℚ :=
  match chanceOf numCats r with
  | .error e => .error e
  | .ok chance => pyDivQ ((if r.correct then (1 : ℚ) else 0) - chance) (1 - chance)

/-- The `adjusted_scores` list of the loop (lines 130-137). -/
def adjustedScores (grs : List GuessResult) (tasks : List ClassificationTask) :
    Except PyErr (List ℚ) :=
  grs.mapM (adjustedOne (allCategories tasks).length)

/-- The `chance_levels` list of the loop (lines 131-138). -/
def chanceLevels (grs : List GuessResult) (tasks : List ClassificationTask) :
    Except PyErr (List ℚ) :=
  grs.mapM (chanceOf (allCategories tasks).length)

/-- `confusion[pair] = confusion.get(pair, 0) + 1` on a Python dict: an
existing key keeps its position, a new key is appended. -/
def bumpPair (acc : List ((String × String) × Nat)) (key : String × String) :
    List ((String × String) × Nat) :=
  match acc with
  | [] => [(key, 1)]
  | (k, c) :: rest =>
    if k = key then (k, c + 1) :: rest else (k, c) :: bumpPair rest key

/-- The confusion-counting loop (lines 149-153): count `(actual, guessed)`
for each incorrect result with a truthy (non-empty) guess. -/
def confusionCounter (grs : List GuessResult) : List ((String × String) × Nat) :=
  grs.foldl
    (fun acc r =>
      if !r.correct && r.guessed != "" then bumpPair acc (r.actual, r.guessed)
      else acc) []

/-- Insert into a sorted list, after existing entries it does not have to
precede (so the overall sort is stable). -/
def insertLe (le : α → α → Bool) (a : α) : List α → List α
  | [] => [a]
  | b :: l => if le a b then a :: b :: l else b :: insertLe le a l

/-- Stable insertion sort. -/
def insSort (le : α → α → Bool) : List α → List α
  | [] => []
  | a :: l => insertLe le a (insSort le l)

/-- Natural numbers in descending order. -/
def sortNatDesc (ns : List Nat) : List Nat :=
  insSort (fun a b => decide (b ≤ a)) ns

/-- `sorted(items, key=lambda x: -x[1])`: Python's `sorted` is stable, and a
stable sort by descending count is exactly the concatenation of the
equal-count groups (each in original order) for the distinct counts taken in
descending order. -/
def stableSortByCountDesc (l : List (α × Nat)) : List (α × Nat) :=
  (sortNatDesc (l.map (fun e => e.2)).dedup).flatMap
    (fun n => l.filter (fun e => e.2 == n))

/-- The `confused_pairs` list comprehension (lines 155-158). -/
def confusedPairsOf (grs : List GuessResult) : List ConfusedPair :=
  (stableSortByCountDesc (confusionCounter grs)).map
    (fun e => ⟨e.1.1, e.1.2, e.2⟩)

/-- `_build_result` from `scorer.py` lines 93-171.  The per-task
chance-adjustment loop contains the only unguarded divisions, so it is the
only place an exception (`ZeroDivisionError`) can escape; the remaining
fields are computed totally.  (The `ScoreResult(...)`/`ConfusedPair(...)`
constructor keyword mismatch against the stale `models.py` is settled under
claim C1 and is not re-modelled here.) -/
def build_result (grs : List GuessResult) (tasks : List ClassificationTask)
    (check : String) : Except PyErr ScoreResult :=
  match adjustedScores grs tasks, chanceLevels grs tasks with
  | .error e, _ => .error e
  | .ok _, .error e => .error e
  | .ok adjs, .ok chs =>
    .ok ⟨if 0 < grs.length then (countCorrect grs : ℚ) / (grs.length : ℚ) else 0,
         grs.length,
         countCorrect grs,
         check,
         if adjs.isEmpty then 0 else adjs.sum / (adjs.length : ℚ),
         if chs.isEmpty then 0 else chs.sum / (chs.length : ℚ),
         (candidatesUnion tasks).card,
         categoryScores grs (allCategories tasks),
         confusedPairsOf grs,
         grs⟩

/-- `score` from `scorer.py` lines 16-90.  The thread pool writes each
result into its task's slot and `_build_result` receives the results in task
order, so its denotation is the sequential `mapM` below; the progress
callback does not influence the returned value and is omitted.  The random
sampling, the shuffle, the prompt builder (`check.build_prompt`) and the
backend (`backend.complete`) are injected as function parameters. -/
def score (pick : List ClassificationTask → Nat → List ClassificationTask)
    (shuffle : List ClassificationTask → List ClassificationTask)
    (build_prompt : List String → String → String)
    (complete : String → String)
    (max_items : Option Int) (tasksIn : List ClassificationTask)
    (check_name : String) : Except PyErr ScoreResult :=
  if tasksIn.isEmpty then
    .error (.valueError "No classification tasks extracted from target.")
  else if (candidatesUnion tasksIn).card < 2 then
    .error (.valueError ("Need at least 2 categories to score, found " ++
      toString (candidatesUnion tasksIn).card ++ "."))
  else
    match sampleAndShuffle pick shuffle max_items tasksIn with
    | .error e => .error e
    | .ok tasks =>
      match tasks.mapM (score_one build_prompt complete) with
      | .error e => .error e
      | .ok grs => build_result grs tasks check_name

/-! ## Generic lemmas about the stable insertion sort -/

theorem mem_insertLe {α : Type} (le : α → α → Bool) (a x : α) (l : List α) :
    x ∈ insertLe le a l ↔ x = a ∨ x ∈ l := by
  induction l with
  | nil => simp [insertLe]
  | cons b l ih =>
    by_cases h : le a b = true
    · simp only [insertLe, h, if_true, List.mem_cons]
    · simp only [insertLe, h]
      simp only [Bool.false_eq_true, if_false, List.mem_cons, ih]
      tauto

theorem mem_insSort {α : Type} (le : α → α → Bool) (x : α) (l : List α) :
    x ∈ insSort le l ↔ x ∈ l := by
  induction l with
  | nil => simp [insSort]
  | cons b l ih => simp [insSort, mem_insertLe, ih]

theorem perm_insertLe {α : Type} (le : α → α → Bool) (a : α) (l : List α) :
    (insertLe le a l).Perm (a :: l) := by
  induction l with
  | nil => simp [insertLe]
  | cons b l ih =>
    by_cases h : le a b = true
    · simp [insertLe, h]
    · simp only [insertLe, h, Bool.false_eq_true, if_false]
      exact (ih.cons b).trans (List.Perm.swap a b l)

theorem perm_insSort {α : Type} (le : α → α → Bool) (l : List α) :
    (insSort le l).Perm l := by
  induction l with
  | nil => simp [insSort]
  | cons b l ih => exact (perm_insertLe le b (insSort le l)).trans (ih.cons b)

theorem pairwise_insertLe {α : Type} (le : α → α → Bool)
    (htot : ∀ a b, le a b = true ∨ le b a = true)
    (htrans : ∀ a b c, le a b = true → le b c = true → le a c = true)
    (a : α) (l : List α) :
    l.Pairwise (fun x y => le x y = true) →
    (insertLe le a l).Pairwise (fun x y => le x y = true) := by
  induction l with
  | nil => intro _; simp [insertLe]
  | cons b l ih =>
    intro h
    rw [List.pairwise_cons] at h
    obtain ⟨hb, hl⟩ := h
    by_cases hab : le a b = true
    · simp only [insertLe, hab, if_true]
      refine List.Pairwise.cons ?_ (List.Pairwise.cons hb hl)
      intro x hx
      rcases List.mem_cons.1 hx with rfl | hx
      · exact hab
      · exact htrans a b x hab (hb x hx)
    · simp only [insertLe, hab, Bool.false_eq_true, if_false]
      refine List.Pairwise.cons ?_ (ih hl)
      intro x hx
      rcases (mem_insertLe le a x l).1 hx with heq | hx
      · rw [heq]
        rcases htot a b with h' | h'
        · exact absurd h' hab
        · exact h'
      · exact hb x hx

theorem pairwise_insSort {α : Type} (le : α → α → Bool)
    (htot : ∀ a b, le a b = true ∨ le b a = true)
    (htrans : ∀ a b c, le a b = true → le b c = true → le a c = true)
    (l : List α) : (insSort le l).Pairwise (fun x y => le x y = true) := by
  induction l with
  | nil => simp [insSort]
  | cons b l ih => exact pairwise_insertLe le htot htrans b _ ih

/-! ## Claim C1 -/

/-- The four tasks of `tests/test_scorer.py::_make_tasks`. -/
def c1Tasks : List ClassificationTask :=
  [⟨"calculate_tax: rate = get_tax_rate()", "calculate_tax",
      ["calculate_tax", "send_email"]⟩,
   ⟨"calculate_tax: amount = price * rate", "calculate_tax",
      ["calculate_tax", "send_email"]⟩,
   ⟨"send_email: msg = build_message(to, subject)", "send_email",
      ["calculate_tax", "send_email"]⟩,
   ⟨"send_email: smtp.send(msg)", "send_email",
      ["calculate_tax", "send_email"]⟩]

/-- C1: the claim states that `score` either returns a complete `ScoreResult`
or raises one of the two insufficient-material `ValueError`s.  In fact, on a
non-empty task list with at least two categories and a backend that answers
with perfectly well-formed JSON, `score` raises `TypeError`: the keyword
arguments passed to `GuessResult(...)` in `scorer.py` do not match the stale
dataclass fields declared in `models.py` (`statement`, `actual_function`,
...), so no run can ever produce a `ScoreResult`.  The repository's own
tests (`tests/test_scorer.py`) assert the successful path, so the code
contradicts its tests: a code bug, not a spec error. -/
theorem c1_score_raises_type_error :
    score (fun l _ => l) id (fun _ i => i)
      (fun _ => "\x7b\"guess\": \"calculate_tax\", \"confidence\": 1.0\x7d")
      none c1Tasks "fake-check" =
      .error (.typeError "unexpected keyword argument: item") ∧
    (∀ msg, PyErr.typeError "unexpected keyword argument: item" ≠ .valueError msg) := by
  exact ⟨rfl, fun msg h => by cases h⟩

/-! ## Claim C2 -/

/-- C2: the claim states that `parse_judgment_json` never propagates an
error, explicitly including non-string `"result"` values and non-numeric
`"confidence"` values.  In fact a non-string `"result"` value reaches the
unguarded `outer["result"].strip()` and raises `AttributeError`, and a
non-coercible `"confidence"` in the direct-`guess` branch reaches the
unguarded `float(...)` and raises `ValueError`; the spec's words ("must
never abort a scoring run") and the function's own broad `except` clauses
show the defensive contract is the intent, so this is a code bug. -/
theorem c2_parse_judgment_json_propagates :
    parse_judgment_json "\x7b\"result\": 42\x7d" =
      .error (.attributeError "int object has no attribute strip") ∧
    parse_judgment_json "\x7b\"guess\": \"x\", \"confidence\": \"abc\"\x7d" =
      .error (.valueError "could not convert string to float: abc") :=
  ⟨rfl, rfl⟩

/-! ## Claim C5 -/

/-- C5: the dispatcher records `correct` as exact string equality between the
decoded guess and the task's actual category-id; a guess equal to `actual` is
always scored correct, and an empty guess is never scored correct when
`actual` is non-empty (so every unparseable oracle response, decoded to an
empty guess, is scored incorrect). -/
theorem c5_correct_is_exact_string_equality :
    (∀ (jr : JudgmentResult) (task : ClassificationTask),
      scoreOneCorrect jr task = true ↔ jr.guess = .str task.actual) ∧
    (∀ (jr : JudgmentResult) (task : ClassificationTask),
      jr.guess = .str task.actual → scoreOneCorrect jr task = true) ∧
    (∀ (jr : JudgmentResult) (task : ClassificationTask),
      task.actual ≠ "" → jr.guess = .str "" → scoreOneCorrect jr task = false) := by
  refine ⟨fun jr task => ?_, fun jr task h => ?_, fun jr task ha hg => ?_⟩
  · cases hg : jr.guess <;> simp [scoreOneCorrect, pyEqStr, hg]
  · simp [scoreOneCorrect, pyEqStr, h]
  · simp [scoreOneCorrect, pyEqStr, hg]
    exact fun h => absurd h.symm ha

/-- Witness for C5 at concrete inputs. -/
theorem c5_correct_is_exact_string_equality_witness :
    scoreOneCorrect ⟨.str "calculate_tax", 1⟩
      ⟨"i", "calculate_tax", ["calculate_tax", "send_email"]⟩ = true ∧
    scoreOneCorrect ⟨.str "", 0⟩
      ⟨"i", "send_email", ["calculate_tax", "send_email"]⟩ = false :=
  ⟨c5_correct_is_exact_string_equality.2.1 _ _ rfl,
   c5_correct_is_exact_string_equality.2.2 _ _ (by decide) rfl⟩

/-! ## Helper lemmas about `_build_result` -/

theorem build_result_fields (grs : List GuessResult)
    (tasks : List ClassificationTask) (check : String) (res : ScoreResult)
    (h : build_result grs tasks check = .ok res) :
    res.total = grs.length ∧ res.correct = countCorrect grs ∧
    res.score =
      (if 0 < grs.length then (countCorrect grs : ℚ) / (grs.length : ℚ) else 0) ∧
    res.num_categories = (candidatesUnion tasks).card ∧
    res.confused_pairs = confusedPairsOf grs ∧
    res.results = grs ∧
    res.category_scores = categoryScores grs (allCategories tasks) := by
  unfold build_result at h
  split at h
  · exact absurd h (by simp)
  · exact absurd h (by simp)
  · injection h with h
    subst h
    exact ⟨rfl, rfl, rfl, rfl, rfl, rfl, rfl⟩

theorem chanceOf_of_two_le (numCats : Nat) (r : GuessResult)
    (h : 2 ≤ r.num_candidates) :
    chanceOf numCats r = .ok (1 / (r.num_candidates : ℚ)) := by
  have hne : (r.num_candidates : ℚ) ≠ 0 := by
    exact_mod_cast (by omega : r.num_candidates ≠ 0)
  simp only [chanceOf, if_pos h, pyDivQ, hne, if_false, if_neg hne]

theorem one_sub_inv_pos (k : Nat) (h : 2 ≤ k) : (0 : ℚ) < 1 - 1 / (k : ℚ) := by
  have h0 : (0 : ℚ) < (k : ℚ) := by exact_mod_cast (by omega : 0 < k)
  have h1 : (1 : ℚ) / (k : ℚ) < 1 := by
    rw [div_lt_one h0]
    exact_mod_cast (by omega : 1 < k)
  linarith

theorem adjustedOne_of_two_le (numCats : Nat) (r : GuessResult)
    (h : 2 ≤ r.num_candidates) :
    adjustedOne numCats r =
      .ok (((if r.correct then (1 : ℚ) else 0) - 1 / (r.num_candidates : ℚ)) /
        (1 - 1 / (r.num_candidates : ℚ))) := by
  have hne : 1 - 1 / (r.num_candidates : ℚ) ≠ 0 := (one_sub_inv_pos _ h).ne'
  rw [adjustedOne, chanceOf_of_two_le _ _ h]
  simp only [pyDivQ, if_neg hne]

theorem adjustedScores_ok :
    ∀ (grs : List GuessResult) (tasks : List ClassificationTask),
      (∀ r ∈ grs, 2 ≤ r.num_candidates) →
      adjustedScores grs tasks =
        .ok (grs.map fun r =>
          ((if r.correct then (1 : ℚ) else 0) - 1 / (r.num_candidates : ℚ)) /
            (1 - 1 / (r.num_candidates : ℚ))) := by
  intro grs tasks
  induction grs with
  | nil => intro _; rfl
  | cons r l ih =>
    intro h
    have h1 : 2 ≤ r.num_candidates := h r (List.mem_cons_self r l)
    have h2 := ih (fun x hx => h x (List.mem_cons_of_mem r hx))
    unfold adjustedScores at h2 ⊢
    rw [List.mapM_cons, adjustedOne_of_two_le _ _ h1, h2]
    rfl

theorem chanceLevels_ok :
    ∀ (grs : List GuessResult) (tasks : List ClassificationTask),
      (∀ r ∈ grs, 2 ≤ r.num_candidates) →
      chanceLevels grs tasks =
        .ok (grs.map fun r => 1 / (r.num_candidates : ℚ)) := by
  intro grs tasks
  induction grs with
  | nil => intro _; rfl
  | cons r l ih =>
    intro h
    have h1 : 2 ≤ r.num_candidates := h r (List.mem_cons_self r l)
    have h2 := ih (fun x hx => h x (List.mem_cons_of_mem r hx))
    unfold chanceLevels at h2 ⊢
    rw [List.mapM_cons, chanceOf_of_two_le _ _ h1, h2]
    rfl

/-! ## Claim C8 -/

/-- C8: the raw score is `correct / total` (0 when `total` is 0), the number
of correct results never exceeds the total, and `0 ≤ raw_score ≤ 1`. -/
theorem c8_raw_score_bounds (grs : List GuessResult)
    (tasks : List ClassificationTask) (check : String) (res : ScoreResult)
    (h : build_result grs tasks check = .ok res) :
    res.correct ≤ res.total ∧
    res.score = (if 0 < res.total then (res.correct : ℚ) / (res.total : ℚ) else 0) ∧
    0 ≤ res.score ∧ res.score ≤ 1 := by
  obtain ⟨ht, hc, hs, -, -, -, -⟩ := build_result_fields grs tasks check res h
  have hle : countCorrect grs ≤ grs.length := List.length_filter_le _ _
  refine ⟨by rw [ht, hc]; exact hle, by rw [ht, hc, hs], ?_, ?_⟩
  · rw [hs]
    split
    · positivity
    · exact le_refl 0
  · rw [hs]
    split
    · rename_i hpos
      rw [div_le_one (by exact_mod_cast hpos)]
      exact_mod_cast hle
    · exact zero_le_one

/-- Witness for C8: the empty run. -/
theorem c8_raw_score_bounds_witness :
    (⟨0, 0, 0, "", 0, 0, 0, [], [], []⟩ : ScoreResult).correct ≤
      (⟨0, 0, 0, "", 0, 0, 0, [], [], []⟩ : ScoreResult).total ∧
    (⟨0, 0, 0, "", 0, 0, 0, [], [], []⟩ : ScoreResult).score =
      (if 0 < (⟨0, 0, 0, "", 0, 0, 0, [], [], []⟩ : ScoreResult).total then
        ((⟨0, 0, 0, "", 0, 0, 0, [], [], []⟩ : ScoreResult).correct : ℚ) /
          ((⟨0, 0, 0, "", 0, 0, 0, [], [], []⟩ : ScoreResult).total : ℚ) else 0) ∧
    0 ≤ (⟨0, 0, 0, "", 0, 0, 0, [], [], []⟩ : ScoreResult).score ∧
    (⟨0, 0, 0, "", 0, 0, 0, [], [], []⟩ : ScoreResult).score ≤ 1 :=
  c8_raw_score_bounds [] [] "" _ rfl

deriving instance DecidableEq for Except

/-! ## Claim C9 -/

/-- A single-task run whose only actual category is `"a"`, so that
`len(all_categories) = 1`. -/
def c9Tasks : List ClassificationTask := [⟨"x = 1", "a", ["a"]⟩]

/-- A result whose `num_candidates` is below 2, triggering the fallback. -/
def c9Gr : GuessResult := ⟨"x = 1", "a", "", 0, false, 1⟩

/-- C9: under the precondition that every result has `num_candidates ≥ 2`,
the chance-adjusted computation is total (every denominator `1 - 1/k` is
strictly positive, so `_build_result` returns a value); and the precondition
is necessary: for a result with `num_candidates < 2` the divisor falls back
to the count of distinct first-seen actual categories, and when that count
is 1 the chance value is `1.0` and the adjusted value divides by zero. -/
theorem c9_chance_adjustment_totality :
    (∀ (grs : List GuessResult) (tasks : List ClassificationTask)
        (check : String), (∀ r ∈ grs, 2 ≤ r.num_candidates) →
      ∃ res, build_result grs tasks check = .ok res) ∧
    (∀ (numCats : Nat) (r : GuessResult), 2 ≤ r.num_candidates →
      chanceOf numCats r = .ok (1 / (r.num_candidates : ℚ)) ∧
      (0 : ℚ) < 1 - 1 / (r.num_candidates : ℚ)) ∧
    ((allCategories c9Tasks).length = 1 ∧
     chanceOf (allCategories c9Tasks).length c9Gr = .ok 1 ∧
     adjustedOne (allCategories c9Tasks).length c9Gr =
       .error (.zeroDivisionError "float division by zero") ∧
     build_result [c9Gr] c9Tasks "" =
       .error (.zeroDivisionError "float division by zero")) := by
  refine ⟨fun grs tasks check h => ?_, fun numCats r h => ?_, by decide, ?_, ?_, ?_⟩
  · unfold build_result
    rw [adjustedScores_ok grs tasks h, chanceLevels_ok grs tasks h]
    exact ⟨_, rfl⟩
  · exact ⟨chanceOf_of_two_le numCats r h, one_sub_inv_pos _ h⟩
  · rfl
  · rfl
  · rfl

/-- Witness for C9's universally quantified parts at concrete inputs. -/
theorem c9_chance_adjustment_totality_witness :
    (∃ res, build_result [⟨"w", "a", "a", 1, true, 2⟩] [⟨"w", "a", ["a", "b"]⟩]
      "w" = .ok res) ∧
    chanceOf 7 ⟨"w", "a", "a", 1, true, 2⟩ = .ok (1 / 2) ∧
    (0 : ℚ) < 1 - 1 / 2 := by
  refine ⟨c9_chance_adjustment_totality.1 _ _ "w" (by decide), ?_, ?_⟩
  · have h := (c9_chance_adjustment_totality.2.1 7 ⟨"w", "a", "a", 1, true, 2⟩
      (by decide)).1
    rw [h]
    norm_num
  · norm_num

/-! ## Claim C3 -/

def c3TasksK2 : List ClassificationTask :=
  [⟨"a1", "a", ["a", "b"]⟩, ⟨"b1", "b", ["a", "b"]⟩]

def c3AllCorrect : List GuessResult :=
  [⟨"a1", "a", "a", 1, true, 2⟩, ⟨"b1", "b", "b", 1, true, 2⟩]

def c3AllWrong : List GuessResult :=
  [⟨"a1", "a", "b", 1, false, 2⟩, ⟨"b1", "b", "a", 1, false, 2⟩]

def c3Half : List GuessResult :=
  [⟨"a1", "a", "a", 1, true, 2⟩, ⟨"b1", "b", "a", 1, false, 2⟩]

def c3TasksMixed : List ClassificationTask :=
  [⟨"x1", "a", ["a", "b"]⟩, ⟨"x2", "a", ["a", "b", "c", "d"]⟩]

def c3Mixed : List GuessResult :=
  [⟨"x1", "a", "a", 1, true, 2⟩, ⟨"x2", "a", "a", 1, true, 4⟩]

/-- C3: when every task offers `k ≥ 2` candidates, the per-task chance is
`1/k`, the per-task adjusted value is `(correctness - chance)/(1 - chance)`
with correctness 1 or 0, and the adjusted score is the mean of these values;
with `k = 2`, all-correct gives adjusted score 1, all-wrong gives -1, and
exactly-chance accuracy gives 0; one correct task at `k = 2` plus one
correct task at `k = 4` gives adjusted score 1 and chance level
`(1/2 + 1/4)/2 = 3/8`. -/
theorem c3_chance_adjusted_formula :
    (∀ (grs : List GuessResult) (tasks : List ClassificationTask),
      (∀ r ∈ grs, 2 ≤ r.num_candidates) →
      adjustedScores grs tasks =
        .ok (grs.map fun r =>
          ((if r.correct then (1 : ℚ) else 0) - 1 / (r.num_candidates : ℚ)) /
            (1 - 1 / (r.num_candidates : ℚ))) ∧
      chanceLevels grs tasks = .ok (grs.map fun r => 1 / (r.num_candidates : ℚ)) ∧
      (∀ check res, build_result grs tasks check = .ok res → grs ≠ [] →
        res.adjusted_score =
          (grs.map fun r =>
            ((if r.correct then (1 : ℚ) else 0) - 1 / (r.num_candidates : ℚ)) /
              (1 - 1 / (r.num_candidates : ℚ))).sum / (grs.length : ℚ) ∧
        res.chance_level =
          (grs.map fun r => 1 / (r.num_candidates : ℚ)).sum / (grs.length : ℚ))) ∧
    (build_result c3AllCorrect c3TasksK2 "").map (fun r => r.adjusted_score) =
      .ok 1 ∧
    (build_result c3AllWrong c3TasksK2 "").map (fun r => r.adjusted_score) =
      .ok (-1) ∧
    (build_result c3Half c3TasksK2 "").map (fun r => r.adjusted_score) = .ok 0 ∧
    (build_result c3Mixed c3TasksMixed "").map
      (fun r => (r.adjusted_score, r.chance_level)) = .ok (1, 3 / 8) := by
  refine ⟨fun grs tasks h => ?_, by decide, by decide, by decide, by decide⟩
  have hA := adjustedScores_ok grs tasks h
  have hC := chanceLevels_ok grs tasks h
  refine ⟨hA, hC, fun check res hb hne => ?_⟩
  unfold build_result at hb
  rw [hA, hC] at hb
  injection hb with hb
  subst hb
  have hlen : grs.length ≠ 0 := fun h0 => hne (List.length_eq_zero.1 h0)
  constructor
  · show (if _ then _ else _) = _
    rw [if_neg (by simp; exact hne), List.length_map]
  · show (if _ then _ else _) = _
    rw [if_neg (by simp; exact hne), List.length_map]

/-- Witness for C3's universally quantified part at a concrete input. -/
theorem c3_chance_adjusted_formula_witness :
    adjustedScores c3Mixed c3TasksMixed = .ok [1, 1] ∧
    chanceLevels c3Mixed c3TasksMixed = .ok [1 / 2, 1 / 4] := by
  have h := c3_chance_adjusted_formula.1 c3Mixed c3TasksMixed (by decide)
  refine ⟨h.1.trans (by decide), h.2.1.trans (by decide)⟩

/-! ## Claim C10 -/

theorem flatMap_cons_eq {α β : Type} (f : α → List β) (t : α) (l : List α) :
    (t :: l).flatMap f = f t ++ l.flatMap f := rfl

theorem candidatesUnion_eq_toFinset (tasks : List ClassificationTask) :
    candidatesUnion tasks = (tasks.flatMap fun t => t.candidates).toFinset := by
  have go : ∀ (ts : List ClassificationTask) (acc : Finset String),
      ts.foldl (fun s t => s ∪ t.candidates.toFinset) acc =
        acc ∪ (ts.flatMap fun t => t.candidates).toFinset := by
    intro ts
    induction ts with
    | nil => intro acc; simp
    | cons t l ih =>
      intro acc
      rw [List.foldl_cons, ih, flatMap_cons_eq, List.toFinset_append,
        Finset.union_assoc]
  rw [candidatesUnion, go]
  simp

/-- Tasks with a single actual category but three distinct candidates. -/
def c10Tasks : List ClassificationTask :=
  [⟨"i1", "a", ["a", "b", "c"]⟩, ⟨"i2", "a", ["a", "b", "c"]⟩]

/-- C10: the reported `num_categories` equals the number of distinct
category-ids in the union of all tasks' candidate sets, which can exceed the
number of distinct actual categories used by the chance fallback. -/
theorem c10_num_categories :
    (∀ (grs : List GuessResult) (tasks : List ClassificationTask)
        (check : String) (res : ScoreResult),
      build_result grs tasks check = .ok res →
      res.num_categories = ((tasks.flatMap fun t => t.candidates).toFinset).card) ∧
    (∃ res, build_result [] c10Tasks "" = .ok res ∧
      res.num_categories = 3 ∧ (allCategories c10Tasks).length = 1 ∧
      (allCategories c10Tasks).length < res.num_categories) := by
  constructor
  · intro grs tasks check res h
    obtain ⟨-, -, -, hn, -, -, -⟩ := build_result_fields grs tasks check res h
    rw [hn, candidatesUnion_eq_toFinset]
  · exact ⟨_, rfl, by decide, by decide, by decide⟩

/-- Witness for C10's universally quantified part at a concrete input. -/
theorem c10_num_categories_witness :
    ∃ res, build_result [] c10Tasks "" = .ok res ∧ res.num_categories =
      ((c10Tasks.flatMap fun t => t.candidates).toFinset).card := by
  refine ⟨_, rfl, c10_num_categories.1 [] c10Tasks "" _ rfl⟩

/-! ## Claim C6: machinery for the confusion counter -/

/-- The qualifying condition of the confusion loop:
`not r.correct and r.guessed`. -/
def confusable (r : GuessResult) : Bool := !r.correct && r.guessed != ""

/-- The number of incorrect, non-empty-guess results with a given
`(actual, guessed)` pair. -/
def wrongGuessCount (grs : List GuessResult) (a b : String) : Nat :=
  (grs.filter (fun r => confusable r && (r.actual == a && r.guessed == b))).length

/-- Count held by an association list for a key (0 when absent). -/
def lookupCnt : List ((String × String) × Nat) → (String × String) → Nat
  | [], _ => 0
  | (kh, c) :: tl, k => if kh = k then c else lookupCnt tl k

theorem lookupCnt_eq_zero_of_not_mem (acc : List ((String × String) × Nat))
    (k : String × String) (h : k ∉ acc.map (fun e => e.1)) : lookupCnt acc k = 0 := by
  induction acc with
  | nil => rfl
  | cons hd tl ih =>
    obtain ⟨kh, c⟩ := hd
    simp only [List.map_cons, List.mem_cons] at h
    push_neg at h
    have hne : ¬ kh = k := fun he => h.1 he.symm
    simp only [lookupCnt, if_neg hne, ih h.2]

theorem lookupCnt_bumpPair (acc : List ((String × String) × Nat))
    (key k' : String × String) :
    lookupCnt (bumpPair acc key) k' =
      lookupCnt acc k' + (if key = k' then 1 else 0) := by
  induction acc with
  | nil =>
    by_cases h : key = k' <;> simp [bumpPair, lookupCnt, h]
  | cons hd tl ih =>
    obtain ⟨kh, c⟩ := hd
    by_cases h1 : kh = key
    · simp only [bumpPair, if_pos h1]
      by_cases h2 : kh = k'
      · have hkk : key = k' := h1.symm.trans h2
        simp only [lookupCnt, if_pos h2, if_pos hkk]
      · have hkk : ¬ key = k' := fun he => h2 (h1.trans he)
        simp only [lookupCnt, if_neg h2, if_neg hkk, Nat.add_zero]
    · simp only [bumpPair, if_neg h1]
      by_cases h2 : kh = k'
      · have hkk : ¬ key = k' := fun he => h1 (h2.trans he.symm)
        simp only [lookupCnt, if_pos h2, if_neg hkk, Nat.add_zero]
      · simp only [lookupCnt, if_neg h2, ih]

theorem keys_bumpPair (acc : List ((String × String) × Nat))
    (key : String × String) :
    (bumpPair acc key).map (fun e => e.1) =
      (if key ∈ acc.map (fun e => e.1) then acc.map (fun e => e.1)
       else acc.map (fun e => e.1) ++ [key]) := by
  induction acc with
  | nil => simp [bumpPair]
  | cons hd tl ih =>
    obtain ⟨kh, c⟩ := hd
    by_cases h1 : kh = key
    · subst h1
      simp [bumpPair]
    · simp only [bumpPair, if_neg h1, List.map_cons, ih]
      have hne : ¬ key = kh := fun he => h1 he.symm
      by_cases h2 : key ∈ tl.map (fun e => e.1)
      · simp [h2, hne]
      · simp [h2, hne]

theorem nodupKeys_bumpPair (acc : List ((String × String) × Nat))
    (key : String × String) (h : (acc.map (fun e => e.1)).Nodup) :
    ((bumpPair acc key).map (fun e => e.1)).Nodup := by
  rw [keys_bumpPair]
  split
  · exact h
  · rename_i hnot
    rw [List.nodup_append]
    refine ⟨h, List.nodup_singleton _, fun a ha hb => ?_⟩
    simp only [List.mem_singleton] at hb
    exact hnot (hb ▸ ha)


theorem not_mem_keys_bumpPair (acc : List ((String × String) × Nat))
    (key x : String × String) (hx : x ∉ acc.map (fun e => e.1)) (hk : x ≠ key) :
    x ∉ (bumpPair acc key).map (fun e => e.1) := by
  rw [keys_bumpPair]
  split
  · exact hx
  · intro hmem
    rcases List.mem_append.1 hmem with h' | h'
    · exact hx h'
    · simp only [List.mem_singleton] at h'
      exact hk h'

/-- Invariant of the confusion dict: keys are distinct and membership is
exactly "positive count held for the key". -/
def CounterInv (acc : List ((String × String) × Nat)) : Prop :=
  ((acc.map (fun e => e.1)).Nodup) ∧
  ∀ k n, ((k, n) ∈ acc ↔ (lookupCnt acc k = n ∧ 0 < n))

theorem counterInv_nil : CounterInv [] := by
  refine ⟨List.nodup_nil, fun k n => ?_⟩
  simp [lookupCnt]
  omega

theorem counterInv_bumpPair :
    ∀ (acc : List ((String × String) × Nat)) (key : String × String),
      CounterInv acc → CounterInv (bumpPair acc key) := by
  intro acc
  induction acc with
  | nil =>
    intro key _
    refine ⟨by simp [bumpPair], fun k n => ?_⟩
    simp only [bumpPair, List.mem_singleton, Prod.mk.injEq, lookupCnt]
    by_cases h : key = k
    · subst h
      simp
      omega
    · have h' : ¬ k = key := fun he => h he.symm
      simp [if_neg h, h']
      omega
  | cons hd tl ih =>
    intro key hInv
    obtain ⟨kh, c⟩ := hd
    obtain ⟨hnd, hmem⟩ := hInv
    simp only [List.map_cons, List.nodup_cons] at hnd
    obtain ⟨hkh_not, hndtl⟩ := hnd
    have hc_pos : 0 < c := ((hmem kh c).1 (List.mem_cons_self _ _)).2
    have htlmem : ∀ k' n, ((k', n) ∈ tl ↔ (lookupCnt tl k' = n ∧ 0 < n)) := by
      intro k' n
      by_cases hk' : kh = k'
      · constructor
        · intro hmemtl
          exact absurd (hk' ▸ (List.mem_map_of_mem (fun e => e.1) hmemtl)) hkh_not
        · rintro ⟨hl, hp⟩
          rw [lookupCnt_eq_zero_of_not_mem tl k' (hk' ▸ hkh_not)] at hl
          omega
      · have h0 := hmem k' n
        simp only [List.mem_cons, Prod.mk.injEq, lookupCnt, if_neg hk'] at h0
        rw [← h0]
        constructor
        · exact fun h => Or.inr h
        · rintro (⟨he, -⟩ | h)
          · exact absurd he.symm hk'
          · exact h
    have htlInv : CounterInv tl := ⟨hndtl, htlmem⟩
    by_cases h1 : kh = key
    · -- head holds the bumped key: bumpPair gives (kh, c+1) :: tl
      refine ⟨?_, fun k' n => ?_⟩
      · simp only [bumpPair, if_pos h1, List.map_cons, List.nodup_cons]
        exact ⟨hkh_not, hndtl⟩
      · simp only [bumpPair, if_pos h1, List.mem_cons, Prod.mk.injEq, lookupCnt]
        by_cases h2 : kh = k'
        · have hk'tl : (k', n) ∉ tl := fun hmemtl =>
            absurd (h2 ▸ (List.mem_map_of_mem (fun e => e.1) hmemtl)) hkh_not
          simp only [if_pos h2]
          constructor
          · rintro (⟨-, rfl⟩ | h)
            · exact ⟨rfl, Nat.succ_pos c⟩
            · exact absurd h hk'tl
          · rintro ⟨rfl, -⟩
            exact Or.inl ⟨h2.symm, rfl⟩
        · simp only [if_neg h2]
          rw [← htlmem k' n]
          constructor
          · rintro (⟨he, -⟩ | h)
            · exact absurd he.symm h2
            · exact h
          · exact fun h => Or.inr h
    · -- head untouched: bumpPair gives (kh, c) :: bumpPair tl key
      obtain ⟨ihnd, ihmem⟩ := ih key htlInv
      refine ⟨?_, fun k' n => ?_⟩
      · simp only [bumpPair, if_neg h1, List.map_cons, List.nodup_cons]
        exact ⟨not_mem_keys_bumpPair tl key kh hkh_not h1, ihnd⟩
      · simp only [bumpPair, if_neg h1, List.mem_cons, Prod.mk.injEq, lookupCnt]
        by_cases h2 : kh = k'
        · have hnotbump : (k', n) ∉ bumpPair tl key := fun hmem' =>
            absurd (h2 ▸ (List.mem_map_of_mem (fun e => e.1) hmem'))
              (not_mem_keys_bumpPair tl key kh hkh_not h1)
          simp only [if_pos h2]
          constructor
          · rintro (⟨-, rfl⟩ | h)
            · exact ⟨rfl, hc_pos⟩
            · exact absurd h hnotbump
          · rintro ⟨rfl, -⟩
            exact Or.inl ⟨h2.symm, rfl⟩
        · simp only [if_neg h2]
          rw [← ihmem k' n]
          constructor
          · rintro (⟨he, -⟩ | h)
            · exact absurd he.symm h2
            · exact h
          · exact fun h => Or.inr h

theorem counterInv_fold :
    ∀ (grs : List GuessResult) (acc : List ((String × String) × Nat)),
      CounterInv acc →
      CounterInv (grs.foldl (fun acc r =>
        if !r.correct && r.guessed != "" then bumpPair acc (r.actual, r.guessed)
        else acc) acc) := by
  intro grs
  induction grs with
  | nil => intro acc h; simpa using h
  | cons r l ih =>
    intro acc h
    rw [List.foldl_cons]
    split
    · exact ih _ (counterInv_bumpPair _ _ h)
    · exact ih _ h

theorem lookupCnt_fold :
    ∀ (grs : List GuessResult) (acc : List ((String × String) × Nat))
      (a b : String),
      lookupCnt (grs.foldl (fun acc r =>
        if !r.correct && r.guessed != "" then bumpPair acc (r.actual, r.guessed)
        else acc) acc) (a, b) =
      lookupCnt acc (a, b) + wrongGuessCount grs a b := by
  intro grs
  induction grs with
  | nil =>
    intro acc a b
    simp [wrongGuessCount]
  | cons r l ih =>
    intro acc a b
    rw [List.foldl_cons]
    by_cases hc : (!r.correct && r.guessed != "") = true
    · rw [if_pos hc, ih, lookupCnt_bumpPair]
      have hwc : wrongGuessCount (r :: l) a b =
          (if (r.actual, r.guessed) = (a, b) then 1 else 0) +
            wrongGuessCount l a b := by
        unfold wrongGuessCount
        rw [List.filter_cons]
        by_cases hm : (r.actual, r.guessed) = (a, b)
        · rw [Prod.mk.injEq] at hm
          have hp : (confusable r && (r.actual == a && r.guessed == b)) = true := by
            simp only [confusable, hc, Bool.true_and, Bool.and_eq_true, beq_iff_eq]
            exact ⟨hm.1, hm.2⟩
          simp only [hp, if_true, List.length_cons, Prod.mk.injEq,
            if_pos (And.intro hm.1 hm.2)]
          omega
        · have hp : (confusable r && (r.actual == a && r.guessed == b)) = false := by
            rw [Prod.mk.injEq] at hm
            simp only [confusable, Bool.and_eq_true, beq_iff_eq, Bool.and_eq_false_iff]
            right
            simp only [Bool.and_eq_false_iff, beq_eq_false_iff_ne, ne_eq]
            by_cases ha : r.actual = a
            · exact Or.inr (fun hg => hm ⟨ha, hg⟩)
            · exact Or.inl ha
          simp only [hp, Bool.false_eq_true, if_false, if_neg hm]
          omega
      rw [hwc]
      omega
    · rw [if_neg hc, ih]
      have hwc : wrongGuessCount (r :: l) a b = wrongGuessCount l a b := by
        unfold wrongGuessCount
        rw [List.filter_cons]
        have hp : (confusable r && (r.actual == a && r.guessed == b)) = false := by
          have : confusable r = false := by
            unfold confusable
            exact Bool.not_eq_true _ ▸ (Bool.eq_false_iff.mpr (fun ht => hc ht))
          simp [this]
        simp [hp]
      rw [hwc]

theorem counterInv_confusionCounter (grs : List GuessResult) :
    CounterInv (confusionCounter grs) :=
  counterInv_fold grs [] counterInv_nil

theorem lookupCnt_confusionCounter (grs : List GuessResult) (a b : String) :
    lookupCnt (confusionCounter grs) (a, b) = wrongGuessCount grs a b := by
  unfold confusionCounter
  rw [lookupCnt_fold]
  simp [lookupCnt]

theorem mem_confusionCounter (grs : List GuessResult) (a b : String) (n : Nat) :
    ((a, b), n) ∈ confusionCounter grs ↔
      (n = wrongGuessCount grs a b ∧ 0 < n) := by
  rw [(counterInv_confusionCounter grs).2 (a, b) n, lookupCnt_confusionCounter]
  constructor
  · rintro ⟨h1, h2⟩
    exact ⟨h1.symm, h2⟩
  · rintro ⟨h1, h2⟩
    exact ⟨h1.symm, h2⟩

theorem mem_stableSortByCountDesc {α : Type} (l : List (α × Nat)) (e : α × Nat) :
    e ∈ stableSortByCountDesc l ↔ e ∈ l := by
  unfold stableSortByCountDesc
  rw [List.mem_flatMap]
  constructor
  · rintro ⟨n, -, he⟩
    exact (List.mem_filter.1 he).1
  · intro he
    refine ⟨e.2, ?_, List.mem_filter.2 ⟨he, by simp⟩⟩
    unfold sortNatDesc
    rw [mem_insSort, List.mem_dedup]
    exact List.mem_map_of_mem (fun e => e.2) he

theorem pairwise_flatMap_filter {α : Type} (l : List (α × Nat)) :
    ∀ (ns : List Nat), ns.Pairwise (fun a b => b ≤ a) →
      (ns.flatMap (fun n => l.filter (fun e => e.2 == n))).Pairwise
        (fun p q : α × Nat => q.2 ≤ p.2) := by
  intro ns
  induction ns with
  | nil => intro _; simp
  | cons n ms ih =>
    intro h
    rw [List.pairwise_cons] at h
    obtain ⟨hn, hms⟩ := h
    rw [flatMap_cons_eq, List.pairwise_append]
    refine ⟨?_, ih hms, ?_⟩
    · refine List.pairwise_of_forall_mem_list (fun x hx y hy => ?_)
      have hx2 := (List.mem_filter.1 hx).2
      have hy2 := (List.mem_filter.1 hy).2
      simp only [beq_iff_eq] at hx2 hy2
      rw [hx2, hy2]
    · intro x hx y hy
      have hx2 := (List.mem_filter.1 hx).2
      simp only [beq_iff_eq] at hx2
      rcases List.mem_flatMap.1 hy with ⟨m, hm, hy'⟩
      have hy2 := (List.mem_filter.1 hy').2
      simp only [beq_iff_eq] at hy2
      have := hn m hm
      omega

theorem pairwise_stableSortByCountDesc {α : Type} (l : List (α × Nat)) :
    (stableSortByCountDesc l).Pairwise (fun p q : α × Nat => q.2 ≤ p.2) := by
  unfold stableSortByCountDesc
  refine pairwise_flatMap_filter l _ ?_
  have h := pairwise_insSort (fun a b : Nat => decide (b ≤ a))
    (fun a b => by
      rcases Nat.le_total b a with h | h
      · left; simpa
      · right; simpa)
    (fun a b c h1 h2 => by
      simp only [decide_eq_true_eq] at h1 h2 ⊢
      omega)
    ((l.map (fun e => e.2)).dedup)
  exact h.imp (fun h' => by simpa using h')

theorem nodup_sortNatDesc_dedup {α : Type} (l : List (α × Nat)) :
    (sortNatDesc ((l.map (fun e => e.2)).dedup)).Nodup :=
  ((perm_insSort _ _).nodup_iff).2 (List.nodup_dedup _)

theorem filter_stableSortByCountDesc {α : Type} (l : List (α × Nat)) (n : Nat) :
    (stableSortByCountDesc l).filter (fun e => e.2 == n) =
      l.filter (fun e => e.2 == n) := by
  unfold stableSortByCountDesc
  have hdist : ∀ (ns : List Nat),
      (ns.flatMap (fun m => l.filter (fun e => e.2 == m))).filter
          (fun e => e.2 == n) =
        ns.flatMap (fun m =>
          (l.filter (fun e => e.2 == m)).filter (fun e => e.2 == n)) := by
    intro ns
    induction ns with
    | nil => rfl
    | cons m ms ih =>
      rw [flatMap_cons_eq, flatMap_cons_eq, List.filter_append, ih]
  rw [hdist]
  have hbucket : ∀ m : Nat,
      (l.filter (fun e => e.2 == m)).filter (fun e => e.2 == n) =
        if m = n then l.filter (fun e => e.2 == n) else [] := by
    intro m
    rw [List.filter_filter]
    by_cases hmn : m = n
    · subst hmn
      rw [if_pos rfl]
      exact List.filter_congr (fun a _ => Bool.and_self _)
    · rw [if_neg hmn, List.filter_eq_nil_iff]
      intro a _
      simp only [Bool.and_eq_true, beq_iff_eq]
      rintro ⟨h1, h2⟩
      exact hmn (h2.symm.trans h1)
  rw [show (fun m => (l.filter (fun e => e.2 == m)).filter (fun e => e.2 == n)) =
    fun m => if m = n then l.filter (fun e => e.2 == n) else [] from funext hbucket]
  have key : ∀ (ns : List Nat), ns.Nodup →
      (ns.flatMap (fun m =>
        if m = n then l.filter (fun e => e.2 == n) else [])) =
        if n ∈ ns then l.filter (fun e => e.2 == n) else [] := by
    intro ns
    induction ns with
    | nil => intro _; simp
    | cons m ms ih =>
      intro hnd
      rw [List.nodup_cons] at hnd
      rw [flatMap_cons_eq, ih hnd.2]
      by_cases hmn : m = n
      · subst hmn
        rw [if_pos rfl, if_neg hnd.1, if_pos (List.mem_cons_self _ _)]
        simp
      · rw [if_neg hmn]
        by_cases hns : n ∈ ms
        · rw [if_pos hns, if_pos (List.mem_cons_of_mem _ hns)]
          simp
        · rw [if_neg hns, if_neg (by
            simp only [List.mem_cons]
            rintro (h | h)
            · exact hmn h.symm
            · exact hns h)]
          simp
  rw [key _ (nodup_sortNatDesc_dedup l)]
  by_cases hin : n ∈ sortNatDesc ((l.map (fun e => e.2)).dedup)
  · rw [if_pos hin]
  · rw [if_neg hin]
    symm
    rw [List.filter_eq_nil_iff]
    intro a ha
    simp only [beq_iff_eq]
    intro h2
    apply hin
    unfold sortNatDesc
    rw [mem_insSort, List.mem_dedup]
    exact h2 ▸ List.mem_map_of_mem (fun e => e.2) ha

theorem confusionCounter_eq_nil_of_all_correct :
    ∀ (grs : List GuessResult), (∀ r ∈ grs, r.correct = true) →
      confusionCounter grs = [] := by
  intro grs
  induction grs with
  | nil => intro _; rfl
  | cons r l ih =>
    intro h
    have hr : r.correct = true := h r (List.mem_cons_self _ _)
    unfold confusionCounter at ih ⊢
    rw [List.foldl_cons, if_neg (by simp [hr])]
    exact ih (fun x hx => h x (List.mem_cons_of_mem _ hx))

/-- Two equal-count wrong-guess pairs. -/
def c6Example : List GuessResult :=
  [⟨"i1", "a", "b", 1, false, 2⟩, ⟨"i2", "x", "y", 1, false, 2⟩]

/-- C6: the aggregator emits a confusion pair `(actual, guessed)` with its
count for exactly the incorrect results with a non-empty guess; the output
is sorted by descending count, ties keep the counter's stable insertion
order (equal-count pairs appear in exactly their first-encounter order);
two equal-count wrong-guess pairs both appear; an all-correct run yields an
empty confusion list. -/
theorem c6_confused_pairs :
    (∀ (grs : List GuessResult) (a b : String) (n : Nat),
      (⟨a, b, n⟩ : ConfusedPair) ∈ confusedPairsOf grs ↔
        (n = wrongGuessCount grs a b ∧ 0 < n)) ∧
    (∀ grs : List GuessResult,
      (confusedPairsOf grs).Pairwise (fun p q => q.count ≤ p.count)) ∧
    (∀ (grs : List GuessResult) (n : Nat),
      (confusedPairsOf grs).filter (fun p => p.count == n) =
        ((confusionCounter grs).filter (fun e => e.2 == n)).map
          (fun e => ⟨e.1.1, e.1.2, e.2⟩)) ∧
    (∀ (grs : List GuessResult) (tasks : List ClassificationTask)
        (check : String) (res : ScoreResult),
      build_result grs tasks check = .ok res →
      res.confused_pairs = confusedPairsOf grs) ∧
    (∀ grs : List GuessResult, (∀ r ∈ grs, r.correct = true) →
      confusedPairsOf grs = []) ∧
    confusedPairsOf c6Example = [⟨"a", "b", 1⟩, ⟨"x", "y", 1⟩] := by
  refine ⟨fun grs a b n => ?_, fun grs => ?_, fun grs n => ?_,
    fun grs tasks check res h => ?_, fun grs h => ?_, by decide⟩
  · unfold confusedPairsOf
    rw [List.mem_map]
    constructor
    · rintro ⟨⟨⟨ea, eb⟩, en⟩, he, heq⟩
      simp only [ConfusedPair.mk.injEq] at heq
      obtain ⟨rfl, rfl, rfl⟩ := heq
      exact (mem_confusionCounter grs ea eb en).1
        ((mem_stableSortByCountDesc _ _).1 he)
    · intro h
      exact ⟨((a, b), n),
        (mem_stableSortByCountDesc _ _).2 ((mem_confusionCounter grs a b n).2 h),
        rfl⟩
  · unfold confusedPairsOf
    rw [List.pairwise_map]
    exact pairwise_stableSortByCountDesc _
  · unfold confusedPairsOf
    rw [List.filter_map]
    show ((stableSortByCountDesc (confusionCounter grs)).filter
      (fun e => e.2 == n)).map (fun e => (⟨e.1.1, e.1.2, e.2⟩ : ConfusedPair)) = _
    rw [filter_stableSortByCountDesc]
  · exact (build_result_fields grs tasks check res h).2.2.2.2.1
  · unfold confusedPairsOf
    rw [confusionCounter_eq_nil_of_all_correct grs h]
    rfl

/-- Witness for C6 at concrete inputs. -/
theorem c6_confused_pairs_witness :
    ((⟨"a", "b", 1⟩ : ConfusedPair) ∈ confusedPairsOf c6Example ↔
      (1 = wrongGuessCount c6Example "a" "b" ∧ 0 < 1)) ∧
    confusedPairsOf [⟨"i", "a", "a", 1, true, 2⟩] = [] :=
  ⟨c6_confused_pairs.1 c6Example "a" "b" 1,
   c6_confused_pairs.2.2.2.2.1 [⟨"i", "a", "a", 1, true, 2⟩] (by decide)⟩

/-! ## Claim C7 -/

/-- The contract of `random.sample`'s selection (for any seed): it returns
exactly `k` of the population's elements, without replacement. -/
def PickOk (pick : List ClassificationTask → Nat → List ClassificationTask) :
    Prop :=
  ∀ (pop : List ClassificationTask) (k : Nat), k ≤ pop.length →
    (pick pop k).length = k ∧ (pick pop k).Subperm pop

/-- Taking a prefix is one admissible selection. -/
def pickTake (pop : List ClassificationTask) (k : Nat) :
    List ClassificationTask := pop.take k

theorem pickTake_ok : PickOk pickTake := by
  intro pop k hk
  constructor
  · simpa [pickTake] using Nat.min_eq_left hk
  · exact (List.take_sublist k pop).subperm

def c7Task : ClassificationTask := ⟨"x = 1", "only_one", ["a", "b"]⟩

/-- C7 counterexample: the claim says that whenever a sampling cap
`max_items` is set and the task count exceeds it, exactly `max_items` tasks
are scored, and that sampling never raises.  With `max_items = 0` (set, and
exceeded by a 1-task list) the guard `if max_items and ...` treats `0` as
falsy and scores all 1 tasks instead of 0; and with `max_items = -1` the
guard passes and `random.sample(tasks, -1)` raises `ValueError`. -/
theorem c7_sampling_counterexample :
    sampleStep pickTake (some 0) [c7Task] = .ok [c7Task] ∧
    sampleStep pickTake (some (-1)) [c7Task] =
      .error (.valueError "Sample larger than population or is negative") := by
  constructor
  · rfl
  · rfl

/-- C7 (amended): for every positive cap `m` and every selection and shuffle
satisfying the `random` module's contracts, sampling-and-shuffling never
raises; when the task count exceeds `m`, exactly `m` tasks are kept, drawn
without replacement from the extracted set; when `m` is at least the task
count the sampling is a no-op and all extracted tasks are kept (shuffled);
with no cap, all tasks are kept. -/
theorem c7_sampling_amended
    (pick : List ClassificationTask → Nat → List ClassificationTask)
    (shuffle : List ClassificationTask → List ClassificationTask)
    (hpick : PickOk pick) (hshuf : ∀ l, (shuffle l).Perm l)
    (m : Int) (hm : 0 < m) (tasks : List ClassificationTask) :
    (∃ ts, sampleAndShuffle pick shuffle (some m) tasks = .ok ts) ∧
    (m < (tasks.length : Int) →
      ∃ ts, sampleAndShuffle pick shuffle (some m) tasks = .ok ts ∧
        (ts.length : Int) = m ∧ ts.Subperm tasks) ∧
    ((tasks.length : Int) ≤ m →
      ∃ ts, sampleAndShuffle pick shuffle (some m) tasks = .ok ts ∧
        ts.Perm tasks) ∧
    sampleAndShuffle pick shuffle none tasks = .ok (shuffle tasks) := by
  have hguard : sampleStep pick (some m) tasks =
      (if m < (tasks.length : Int) then .ok (pick tasks m.toNat)
       else .ok tasks) := by
    show (if m ≠ 0 ∧ m < (tasks.length : Int) then pySample pick tasks m
      else .ok tasks) = _
    by_cases hlt : m < (tasks.length : Int)
    · rw [if_pos (And.intro (by omega) hlt), if_pos hlt]
      unfold pySample
      rw [if_neg (by omega)]
    · rw [if_neg (fun hcon => hlt hcon.2), if_neg hlt]
  have hcase2 : m < (tasks.length : Int) →
      ∃ ts, sampleAndShuffle pick shuffle (some m) tasks = .ok ts ∧
        (ts.length : Int) = m ∧ ts.Subperm tasks := by
    intro hlt
    have hkle : m.toNat ≤ tasks.length := by omega
    obtain ⟨hlen, hsub⟩ := hpick tasks m.toNat hkle
    refine ⟨shuffle (pick tasks m.toNat), ?_, ?_, ?_⟩
    · unfold sampleAndShuffle
      rw [hguard, if_pos hlt]
    · rw [(hshuf (pick tasks m.toNat)).length_eq, hlen]
      omega
    · exact ((hshuf (pick tasks m.toNat)).subperm).trans hsub
  have hcase3 : (tasks.length : Int) ≤ m →
      ∃ ts, sampleAndShuffle pick shuffle (some m) tasks = .ok ts ∧
        ts.Perm tasks := by
    intro hle
    refine ⟨shuffle tasks, ?_, hshuf tasks⟩
    unfold sampleAndShuffle
    rw [hguard, if_neg (by omega)]
  refine ⟨?_, hcase2, hcase3, rfl⟩
  by_cases hlt : m < (tasks.length : Int)
  · obtain ⟨ts, h, -⟩ := hcase2 hlt
    exact ⟨ts, h⟩
  · obtain ⟨ts, h, -⟩ := hcase3 (by omega)
    exact ⟨ts, h⟩

/-- Witness for C7 (amended): `max_items = 2` on a four-task list keeps
exactly two of the extracted tasks. -/
theorem c7_sampling_amended_witness :
    ∃ ts, sampleAndShuffle pickTake id (some 2) c1Tasks = .ok ts ∧
      (ts.length : Int) = 2 ∧ ts.Subperm c1Tasks := by
  exact (c7_sampling_amended pickTake id pickTake_ok (fun l => List.Perm.refl l)
    2 (by norm_num) c1Tasks).2.1 (by norm_num [c1Tasks])

/-! ## Claim C4: the `file-to-folder` check (`linescore/checks/file_to_folder.py`)

The directory tree the check walks is modelled flatly: a filesystem is the
list of its entries, each holding its parent directory's relative path
parts, its own name, and whether it is a directory (the root `"."` is
implicit and always a directory).  `iterdir`, `rglob` and `is_dir` become
list filters over this table. -/

/-- One filesystem entry. -/
structure FSEntry where
  parent : List String
  name : String
  isDir : Bool
  deriving DecidableEq, Repr

/-- The relative path of an entry, as parts. -/
def entryPath (e : FSEntry) : List String := e.parent ++ [e.name]

/-- The `Language` fields the check consults. -/
structure Language where
  ignore_dirs : List String
  ignore_suffixes : List String

/-- `PythonLanguage` from `linescore/languages/python.py`. -/
def pythonLanguage : Language :=
  ⟨["__pycache__", ".mypy_cache", "__pypackages__", ".pytest_cache"],
   [".pyc", ".pyo"]⟩

/-- `str.startswith`. -/
def strStartsWith (s p : String) : Bool := p.data.isPrefixOf s.data

/-- `str.endswith`. -/
def strEndsWith (s p : String) : Bool := p.data.isSuffixOf s.data

/-- `FileToFolderCheck._should_ignore`. -/
def shouldIgnore (lang : Language) (nm : String) : Bool :=
  strStartsWith nm "." || lang.ignore_dirs.contains nm ||
    lang.ignore_suffixes.any (fun s => strEndsWith nm s)

/-- The local `_skip_dir` of `extract`: any path part that starts with a dot
or is an ignored directory name (ignore *suffixes* are not checked here). -/
def skipDir (lang : Language) (parts : List String) : Bool :=
  parts.any (fun p => strStartsWith p "." || lang.ignore_dirs.contains p)

/-- `str(p.relative_to(root))`: `"."` for the root itself, else the parts
joined with `/`. -/
def pathStr (parts : List String) : String :=
  if parts.isEmpty then "." else String.intercalate "/" parts

/-- Lexicographic `<` on code points. -/
def strLtChars : List Char → List Char → Bool
  | [], [] => false
  | [], _ :: _ => true
  | _ :: _, [] => false
  | a :: as, b :: bs =>
    if a.toNat < b.toNat then true
    else if b.toNat < a.toNat then false
    else strLtChars as bs

/-- String `≤` as a boolean (Python sorts strings lexicographically by code
points; `Path` objects compare by their string form on POSIX). -/
def strLeB (a b : String) : Bool := !(strLtChars b.data a.data)

/-- `dirpath.iterdir()`: the entries whose parent is the given directory. -/
def iterdir (fs : List FSEntry) (parts : List String) : List FSEntry :=
  fs.filter (fun e => decide (e.parent = parts))

/-- The relative paths of all descendant directories
(`root.rglob("*")` filtered by `is_dir`). -/
def dirPaths (fs : List FSEntry) : List (List String) :=
  (fs.filter (fun e => e.isDir)).map entryPath

/-- `sorted(dirpath.iterdir())` filtered by `_should_ignore`: a folder's
children names (files and subfolders). -/
def childNames (lang : Language) (fs : List FSEntry) (parts : List String) :
    List String :=
  (insSort strLeB ((iterdir fs parts).map (fun e => e.name))).filter
    (fun nm => !(shouldIgnore lang nm))

/-- The non-ignored subdirectory entries of a directory. -/
def dirEntriesKept (lang : Language) (fs : List FSEntry) (parts : List String) :
    List FSEntry :=
  (iterdir fs parts).filter (fun e => e.isDir && !(shouldIgnore lang e.name))

/-- `FileToFolderCheck._neighborhood`: for the root, the root plus its
direct non-ignored child folders; for a folder `F`, the non-ignored folders
of `F`'s parent (`F`'s siblings — including `F` itself when its own name is
not ignored) plus the parent, as a sorted set of relative path strings.
(For a folder reached by `extract`, the parent directory always exists —
the folder entry itself lies in it — so `parent_abs.iterdir()` cannot raise
and the flat model's filter is its exact behaviour.) -/
def neighborhood (lang : Language) (fs : List FSEntry)
    (folderParts : List String) : List String :=
  if folderParts.isEmpty then
    insSort strLeB
      (("." :: (dirEntriesKept lang fs []).map (fun e => e.name)).dedup)
  else
    insSort strLeB
      ((((dirEntriesKept lang fs folderParts.dropLast).map
          (fun e => pathStr (folderParts.dropLast ++ [e.name]))) ++
        [pathStr folderParts.dropLast]).dedup)

/-- The `folder_children` dict of `extract` (lines 101-119): descendant
folders in sorted path order with their ≥ 2 non-ignored children, then the
root itself when it has ≥ 2 non-ignored children. -/
def folderChildrenList (lang : Language) (fs : List FSEntry) :
    List (List String × List String) :=
  let descs := insSort (fun a b => strLeB (pathStr a) (pathStr b)) (dirPaths fs)
  let base := descs.filterMap (fun p =>
    if skipDir lang p then none
    else
      let ch := childNames lang fs p
      if 2 ≤ ch.length then some (p, ch) else none)
  let rootCh := childNames lang fs []
  base ++ (if 2 ≤ rootCh.length then [([], rootCh)] else [])

/-- `FileToFolderCheck.extract` (lines 80-132), for a directory target. -/
def extractFileToFolder (lang : Language) (fs : List FSEntry) :
    List ClassificationTask :=
  (folderChildrenList lang fs).flatMap (fun fc =>
    let candidates := neighborhood lang fs fc.1
    if candidates.length < 2 then []
    else fc.2.map (fun child => ⟨child, pathStr fc.1, candidates⟩))

/-- The spec's example tree, rooted at a project directory containing
`src`. -/
def exampleFS : List FSEntry :=
  [⟨[], "src", true⟩,
   ⟨["src"], "auth", true⟩,
   ⟨["src"], "billing", true⟩,
   ⟨["src", "auth"], "login.py", false⟩,
   ⟨["src", "auth"], "token.py", false⟩,
   ⟨["src", "billing"], "invoice.py", false⟩,
   ⟨["src", "billing"], "payment.py", false⟩,
   ⟨["src", "billing"], "utils", true⟩,
   ⟨["src", "billing", "utils"], "fmt.py", false⟩,
   ⟨["src", "billing", "utils"], "calc.py", false⟩]

example :
    (∀ t ∈ extractFileToFolder pythonLanguage exampleFS,
      t.actual = "src/auth" →
        t.candidates = ["src", "src/auth", "src/billing"]) := by decide

theorem mem_neighborhood_root (lang : Language) (fs : List FSEntry) (c : String) :
    c ∈ neighborhood lang fs [] ↔
      (c = "." ∨ ∃ e ∈ fs, e.parent = ([] : List String) ∧ e.isDir = true ∧
        shouldIgnore lang e.name = false ∧ c = e.name) := by
  show c ∈ insSort strLeB
    (("." :: (dirEntriesKept lang fs []).map (fun e => e.name)).dedup) ↔ _
  rw [mem_insSort, List.mem_dedup, List.mem_cons]
  simp only [List.mem_map, dirEntriesKept, iterdir, List.mem_filter,
    Bool.and_eq_true, Bool.not_eq_true', decide_eq_true_eq]
  constructor
  · rintro (h | ⟨e, ⟨⟨he, hp⟩, hd, hig⟩, rfl⟩)
    · exact Or.inl h
    · exact Or.inr ⟨e, he, hp, hd, hig, rfl⟩
  · rintro (h | ⟨e, he, hp, hd, hig, rfl⟩)
    · exact Or.inl h
    · exact Or.inr ⟨e, ⟨⟨he, hp⟩, hd, hig⟩, rfl⟩

theorem mem_neighborhood_nonroot (lang : Language) (fs : List FSEntry)
    (parts : List String) (h : parts ≠ []) (c : String) :
    c ∈ neighborhood lang fs parts ↔
      (c = pathStr parts.dropLast ∨ ∃ e ∈ fs, e.parent = parts.dropLast ∧
        e.isDir = true ∧ shouldIgnore lang e.name = false ∧
        c = pathStr (parts.dropLast ++ [e.name])) := by
  unfold neighborhood
  rw [if_neg (by simpa using h), mem_insSort, List.mem_dedup, List.mem_append,
    List.mem_singleton]
  simp only [List.mem_map, dirEntriesKept, iterdir, List.mem_filter,
    Bool.and_eq_true, Bool.not_eq_true', decide_eq_true_eq]
  constructor
  · rintro (⟨e, ⟨⟨he, hp⟩, hd, hig⟩, rfl⟩ | h)
    · exact Or.inr ⟨e, he, hp, hd, hig, rfl⟩
    · exact Or.inl h
  · rintro (h | ⟨e, he, hp, hd, hig, rfl⟩)
    · exact Or.inr h
    · exact Or.inl ⟨e, ⟨⟨he, hp⟩, hd, hig⟩, rfl⟩

/-- The amended local-neighborhood property of one extracted task: its
`actual` is a folder whose candidate set is exactly the parent's non-ignored
subfolders (the item's folder `F` itself included whenever `F`'s own name is
not an ignored name) plus the parent — or, for the root, the root plus its
non-ignored direct child folders. -/
def NeighborhoodSpec (lang : Language) (fs : List FSEntry)
    (t : ClassificationTask) : Prop :=
  ∃ folder : List String,
    t.actual = pathStr folder ∧
    t.candidates = neighborhood lang fs folder ∧
    2 ≤ t.candidates.length ∧
    ((folder = [] ∧ ∀ c, (c ∈ t.candidates ↔ (c = "." ∨ ∃ e ∈ fs,
        e.parent = ([] : List String) ∧ e.isDir = true ∧
        shouldIgnore lang e.name = false ∧ c = e.name))) ∨
     (folder ≠ [] ∧
      (∀ c, c ∈ t.candidates ↔ (c = pathStr folder.dropLast ∨ ∃ e ∈ fs,
        e.parent = folder.dropLast ∧ e.isDir = true ∧
        shouldIgnore lang e.name = false ∧
        c = pathStr (folder.dropLast ++ [e.name]))) ∧
      (∃ f ∈ fs, f.isDir = true ∧ entryPath f = folder ∧
        (shouldIgnore lang f.name = false → pathStr folder ∈ t.candidates))))

/-- A tree with a folder whose name matches an ignored suffix: `a.pyc` has
two children (so it generates tasks) but is excluded from its own candidate
set, refuting the original claim's unconditional "F itself". -/
def suffixFS : List FSEntry :=
  [⟨[], "a.pyc", true⟩, ⟨[], "b", true⟩,
   ⟨["a.pyc"], "f1", false⟩, ⟨["a.pyc"], "f2", false⟩,
   ⟨["b"], "g1", false⟩, ⟨["b"], "g2", false⟩]

/-- C4 counterexample: the claim says every task's candidate set contains
the item's folder `F` itself.  For the folder `a.pyc` (its name ends in the
ignored suffix `.pyc`), `extract` produces tasks whose candidate set omits
`a.pyc` — `_skip_dir` does not check ignore-suffixes, but `_neighborhood`'s
`_should_ignore` filter does. -/
theorem c4_neighborhood_counterexample :
    ∃ t ∈ extractFileToFolder pythonLanguage suffixFS,
      t.actual = "a.pyc" ∧ "a.pyc" ∉ t.candidates := by decide

/-- C4 (amended): each task's candidate set is the local neighborhood of the
item's folder `F` — `F`'s non-ignored sibling folders (including `F` itself
whenever `F`'s own name is not ignored; a folder named like an ignored
suffix still generates tasks but is omitted from its own candidate set) and
`F`'s parent folder, while the root's neighborhood is the root plus its
direct non-ignored child folders; in the spec's example tree, tasks for
items inside `src/auth` offer exactly `src`, `src/auth`, `src/billing` and
never `src/billing/utils`. -/
theorem c4_neighborhood_amended :
    (∀ (lang : Language) (fs : List FSEntry),
      ∀ t ∈ extractFileToFolder lang fs, NeighborhoodSpec lang fs t) ∧
    (∀ t ∈ extractFileToFolder pythonLanguage exampleFS,
      t.actual = "src/auth" →
        t.candidates = ["src", "src/auth", "src/billing"]) ∧
    (∃ t ∈ extractFileToFolder pythonLanguage exampleFS,
      t.actual = "src/auth" ∧ t.item = "login.py") ∧
    (∃ t ∈ extractFileToFolder pythonLanguage exampleFS,
      t.actual = "src/auth" ∧ t.item = "token.py") ∧
    (∀ t ∈ extractFileToFolder pythonLanguage exampleFS,
      t.actual = "src/auth" → "src/billing/utils" ∉ t.candidates) := by
  refine ⟨?_, by decide, by decide, by decide, by decide⟩
  intro lang fs t ht
  unfold extractFileToFolder at ht
  rw [List.mem_flatMap] at ht
  obtain ⟨fc, hfc, hmem⟩ := ht
  by_cases hlen : (neighborhood lang fs fc.1).length < 2
  · rw [if_pos hlen] at hmem
    exact absurd hmem (List.not_mem_nil t)
  · rw [if_neg hlen] at hmem
    rw [List.mem_map] at hmem
    obtain ⟨child, hchild, rfl⟩ := hmem
    refine ⟨fc.1, rfl, rfl, by simpa using Nat.le_of_not_lt hlen, ?_⟩
    unfold folderChildrenList at hfc
    rw [List.mem_append] at hfc
    rcases hfc with hbase | hroot
    · -- a descendant folder from the walk
      rw [List.mem_filterMap] at hbase
      obtain ⟨p, hp, hpe⟩ := hbase
      have hp' : p ∈ dirPaths fs :=
        (mem_insSort (fun a b => strLeB (pathStr a) (pathStr b)) p _).1 hp
      rw [dirPaths, List.mem_map] at hp'
      obtain ⟨f, hf, hfp⟩ := hp'
      rw [List.mem_filter] at hf
      have hfc1 : fc.1 = p := by
        split at hpe
        · exact absurd hpe (by simp)
        · have hpe' : (if 2 ≤ (childNames lang fs p).length then
              some (p, childNames lang fs p) else none) = some fc := hpe
          split at hpe'
          · rw [Option.some.injEq] at hpe'
            rw [← hpe']
          · exact absurd hpe' (by simp)
      have hpne : p ≠ [] := by
        rw [← hfp]
        unfold entryPath
        simp
      have hdrop : p.dropLast = f.parent := by
        rw [← hfp]
        unfold entryPath
        simp
      refine Or.inr ⟨by rw [hfc1]; exact hpne, ?_, ?_⟩
      · intro c
        rw [hfc1]
        exact mem_neighborhood_nonroot lang fs p hpne c
      · refine ⟨f, hf.1, hf.2, by rw [hfc1]; exact hfp, ?_⟩
        intro hig
        rw [hfc1]
        rw [mem_neighborhood_nonroot lang fs p hpne]
        refine Or.inr ⟨f, hf.1, hdrop.symm, hf.2, hig, ?_⟩
        rw [hdrop, ← hfp]
        rfl
    · -- the root itself
      have hfc1 : fc.1 = [] := by
        split at hroot
        · rw [List.mem_singleton] at hroot
          rw [hroot]
        · exact absurd hroot (List.not_mem_nil fc)
      refine Or.inl ⟨hfc1, fun c => ?_⟩
      rw [hfc1]
      exact mem_neighborhood_root lang fs c

/-- Witness for C4 (amended) at the spec's example tree. -/
theorem c4_neighborhood_amended_witness :
    NeighborhoodSpec pythonLanguage exampleFS
      ⟨"login.py", "src/auth", ["src", "src/auth", "src/billing"]⟩ :=
  c4_neighborhood_amended.1 pythonLanguage exampleFS
    ⟨"login.py", "src/auth", ["src", "src/auth", "src/billing"]⟩ (by decide)
